import Mathlib

/-!
Verification of the swap-sphere matching engine.

Shallow embedding of the core scoring/ranking code:
- `apps/matching-engine/src/services/trust.service.ts`   (TrustService)
- `apps/matching-engine/src/services/language.service.ts` (LanguageService)
- `apps/matching-engine/src/services/semantic.service.ts` (SemanticService)
- `apps/matching-engine/src/matching-engine`              (MatchingEngine)

JavaScript numbers are modelled by `ℚ`; the external embedding provider is
modelled by an environment `SemanticEnv` carrying a success flag for
initialization, a success flag for per-call inference, and an abstract raw
cosine-similarity function.  Thrown exceptions that escape a function are
modelled with `Except String`.  Fields that the scoring algorithms never read
(emails, timestamps, explanations, log output) are omitted.
-/

namespace SwapSphere

/-! ### Data model (`user.types.ts`, `matching.types.ts`) -/

/-- `Skill` from `user.types.ts`.  The `level` field is a string union type in
TypeScript; it is modelled by `String` because `getLevelWeight` explicitly
handles unrecognized values (`?? 0.5`). -/
structure Skill where
  id : String
  name : String
  description : Option String
  level : String
  category : Option String
deriving DecidableEq, Repr

/-- `UserProfile` from `user.types.ts` (scoring-relevant fields). -/
structure UserProfile where
  id : String
  username : String
  languages : List String
  offers : List Skill
  wants : List Skill
  trustScore : ℚ
deriving DecidableEq, Repr

/-- `MatchingWeights` from `user.types.ts`. -/
structure MatchingWeights where
  w1 : ℚ
  w2 : ℚ
  w3 : ℚ
  w4 : ℚ
deriving DecidableEq, Repr

/-- `DEFAULT_WEIGHTS` from `user.types.ts`. -/
def DEFAULT_WEIGHTS : MatchingWeights :=
  { w1 := 35/100, w2 := 35/100, w3 := 15/100, w4 := 15/100 }

/-- `MatchingConfig` from `matching.types.ts`; the optional fields are
`Option`s, mirroring `minMatchScore?`, `maxResults?`,
`enableBidirectionalMatching?`. -/
structure MatchingConfig where
  weights : MatchingWeights
  minMatchScore : Option ℚ
  maxResults : Option Nat
  enableBidirectionalMatching : Option Bool
deriving DecidableEq, Repr

/-- `MatchScore` from `user.types.ts`. -/
structure MatchScore where
  totalScore : ℚ
  semanticScoreAtoB : ℚ
  semanticScoreBtoA : ℚ
  languageScore : ℚ
  trustScore : ℚ
  breakdown : MatchingWeights
deriving DecidableEq, Repr

/-- `MatchResult` from `user.types.ts` (without the `matchedAt` timestamp). -/
structure MatchResult where
  userA : UserProfile
  userB : UserProfile
  matchScore : MatchScore
deriving DecidableEq, Repr

/-- `TrustScoreResult.factors` from `matching.types.ts`. -/
structure TrustFactors where
  userATrust : ℚ
  userBTrust : ℚ
  averageTrust : ℚ
deriving DecidableEq, Repr

/-- `TrustScoreResult` from `matching.types.ts`. -/
structure TrustScoreResult where
  score : ℚ
  factors : TrustFactors
deriving DecidableEq, Repr

/-- `LanguageSimilarityResult` from `matching.types.ts`. -/
structure LanguageSimilarityResult where
  score : ℚ
  commonLanguages : List String
  totalLanguages : Nat
deriving DecidableEq, Repr

/-! ### TrustService (`trust.service.ts`) -/

/-- `TrustService.normalizeTrustScore`: clamp a raw trust rating into
`[0,1]` (`Math.max(0, Math.min(1, score))`). -/
def normalizeTrustScore (score : ℚ) : ℚ :=
  max 0 (min 1 score)

/-- `TrustService.calculateTrustScore`: average of the two clamped trust
ratings, with a low-trust penalty and a mutual-high-trust bonus applied by two
sequential `if` statements, and a final clamp into `[0,1]`. -/
def calculateTrustScore (userA userB : UserProfile) : TrustScoreResult :=
  let userATrust := normalizeTrustScore userA.trustScore
  let userBTrust := normalizeTrustScore userB.trustScore
  let averageTrust := (userATrust + userBTrust) / 2
  let finalScore := averageTrust
  let finalScore :=
    if userATrust < 3/10 ∨ userBTrust < 3/10 then averageTrust * (7/10)
    else finalScore
  let finalScore :=
    if userATrust > 8/10 ∧ userBTrust > 8/10 then min 1 (averageTrust * (11/10))
    else finalScore
  { score := max 0 (min 1 finalScore)
    factors :=
      { userATrust := userATrust
        userBTrust := userBTrust
        averageTrust := averageTrust } }

/-! ### String helpers mirroring the JavaScript primitives used by the code -/

/-- `needle` is a leading segment of `hay` (character-list version of
`String.startsWith`). -/
def charsLeading : List Char → List Char → Bool
  | [], _ => true
  | _ :: _, [] => false
  | a :: as, b :: bs => a = b && charsLeading as bs

/-- `needle` occurs contiguously inside `hay`. -/
def charsContains : List Char → List Char → Bool
  | needle, [] => needle.isEmpty
  | needle, b :: rest => charsLeading needle (b :: rest) || charsContains needle rest

/-- JavaScript `a.includes(b)`: `b` occurs as a substring of `a`. -/
def strIncludes (a b : String) : Bool :=
  charsContains b.data a.data

/-- Worker for `splitWs`.  The second argument is `some acc` while inside a
token (`acc` holds the token's characters reversed) and `none` while inside a
run of whitespace. -/
def splitWsAux : List Char → Option (List Char) → List String
  | [], some acc => [String.mk acc.reverse]
  | [], none => [""]
  | c :: rest, some acc =>
    if c.isWhitespace then String.mk acc.reverse :: splitWsAux rest none
    else splitWsAux rest (some (c :: acc))
  | c :: rest, none =>
    if c.isWhitespace then splitWsAux rest none
    else splitWsAux rest (some [c])

/-- JavaScript `s.split(/\s+/)`: split on maximal whitespace runs; a leading
(resp. trailing) whitespace run contributes an empty string at the front
(resp. back), and `"".split(/\s+/)` is `[""]`. -/
def splitWs (s : String) : List String :=
  splitWsAux s.data (some [])

/-- JavaScript `Set` insertion-order deduplication worker: keep the first
occurrence of each element, tracking already-seen elements in `seen`. -/
def dedupFirstAux (seen : List String) : List String → List String
  | [] => []
  | x :: xs =>
    if x ∈ seen then dedupFirstAux seen xs
    else x :: dedupFirstAux (x :: seen) xs

/-- `Array.from(new Set(l))`: deduplicate keeping first occurrences in order. -/
def dedupFirst (l : List String) : List String :=
  dedupFirstAux [] l

/-! ### LanguageService (`language.service.ts`) -/

/-- The normalization `lang.toLowerCase().trim()` applied to every declared
language. -/
def normalizeLang (lang : String) : String :=
  lang.toLower.trim

/-- `LanguageService.calculateLanguageSimilarity`: sets of normalized
languages, a base score of `0.5 + (|common| / |union|) * 0.5` (capped at 1)
when the intersection is non-empty, then a `+0.2` primary-language bonus
(capped at 1) when the first declared languages agree after normalization. -/
def calculateLanguageSimilarity (userA userB : UserProfile) : LanguageSimilarityResult :=
  let languagesA := dedupFirst (userA.languages.map normalizeLang)
  let languagesB := dedupFirst (userB.languages.map normalizeLang)
  let commonLanguages := languagesA.filter (fun lang => lang ∈ languagesB)
  let totalUniqueLanguages := (dedupFirst (languagesA ++ languagesB)).length
  let score : ℚ :=
    if commonLanguages.length > 0 then
      min 1 (1/2 + ((commonLanguages.length : ℚ) / (totalUniqueLanguages : ℚ)) * (1/2))
    else 0
  let score : ℚ :=
    if userA.languages.length > 0 ∧ userB.languages.length > 0 ∧
        userA.languages.head?.map normalizeLang = userB.languages.head?.map normalizeLang then
      min 1 (score + 2/10)
    else score
  { score := score
    commonLanguages := commonLanguages
    totalLanguages := totalUniqueLanguages }

/-! ### SemanticService (`semantic.service.ts`)

The embedding provider (`@xenova/transformers` pipeline) is external.  It is
modelled by `SemanticEnv`: `initOk` says whether `initialize()` succeeds
(`pipeline(...)` resolves), `callOk` says whether a per-call embedding
inference succeeds, and `embedSim` is the raw cosine similarity the provider
would yield for the two skills' text representations. -/

/-- Model of the external embedding provider's behaviour. -/
structure SemanticEnv where
  initOk : Bool
  callOk : Bool
  embedSim : Skill → Skill → ℚ

/-- `SemanticService.fallbackSimilarity`: deterministic lexical heuristic used
when embeddings are unavailable.  Returns the `score` field of the produced
`SemanticSimilarityResult` (the optional `explanation` is omitted). -/
def fallbackSimilarity (skillA skillB : Skill) : ℚ :=
  let nameA := skillA.name.toLower
  let nameB := skillB.name.toLower
  if nameA = nameB then 1
  else if strIncludes nameA nameB || strIncludes nameB nameA then 7/10
  else
    let wordsA := splitWs nameA
    let wordsB := splitWs nameB
    let commonWords := wordsA.filter (fun word => word ∈ wordsB)
    if commonWords.length > 0 then
      let similarity : ℚ := (commonWords.length : ℚ) / ((max wordsA.length wordsB.length : Nat) : ℚ)
      similarity * (1/2)
    else 0

/-- `SemanticService.calculateSkillSimilarity` (score field): when the
provider initializes and responds, the raw cosine similarity is normalized by
`Math.max(0, (similarity + 1) / 2)`; any thrown error (failed initialization
inside `getEmbedding`, failed inference) is caught and answered by
`fallbackSimilarity`. -/
def calculateSkillSimilarity (env : SemanticEnv) (skillA skillB : Skill) : ℚ :=
  if env.initOk && env.callOk then
    max 0 ((env.embedSim skillA skillB + 1) / 2)
  else
    fallbackSimilarity skillA skillB

/-- The `for` loop of `SemanticService.findBestMatch`, carrying the current
`bestMatch` and `bestScore`. -/
def findBestMatchLoop (env : SemanticEnv) (targetSkill : Skill) :
    List Skill → Option (Skill × ℚ) → ℚ → Option (Skill × ℚ)
  | [], bestMatch, _ => bestMatch
  | candidate :: rest, bestMatch, bestScore =>
    let score := calculateSkillSimilarity env targetSkill candidate
    if score > bestScore then
      findBestMatchLoop env targetSkill rest (some (candidate, score)) score
    else
      findBestMatchLoop env targetSkill rest bestMatch bestScore

/-- `SemanticService.findBestMatch`: `none` on an empty candidate list,
otherwise the loop starting from `bestMatch = null`, `bestScore = -1`. -/
def findBestMatch (env : SemanticEnv) (targetSkill : Skill)
    (candidateSkills : List Skill) : Option (Skill × ℚ) :=
  if candidateSkills.length = 0 then none
  else findBestMatchLoop env targetSkill candidateSkills none (-1)

/-! ### MatchingEngine (`matching-engine`) -/

/-- `MatchingEngine.getLevelWeight`: record lookup with default `?? 0.5`. -/
def getLevelWeight (level : String) : ℚ :=
  if level = "beginner" then 1/2
  else if level = "intermediate" then 3/4
  else if level = "advanced" then 9/10
  else if level = "expert" then 1
  else 1/2

/-- `Math.max(...scores)` over a non-empty list (the code only applies it to
non-empty `scores`; the `[]` case is junk). -/
def listMax : List ℚ → ℚ
  | [] => 0
  | x :: xs => xs.foldl max x

/-- The `scores` array built by `calculateSemanticScoreAtoB`: one entry
`bestMatch.similarity * getLevelWeight offer.level` per offer whose
`findBestMatch` is non-null. -/
def semanticScores (env : SemanticEnv) (userA userB : UserProfile) : List ℚ :=
  userA.offers.filterMap (fun offer =>
    (findBestMatch env offer userB.wants).map
      (fun bestMatch => bestMatch.2 * getLevelWeight offer.level))

/-- `MatchingEngine.calculateSemanticScoreAtoB`: 0 when either side is empty,
otherwise `0.7 * average + 0.3 * max` of the weighted best-match scores. -/
def calculateSemanticScoreAtoB (env : SemanticEnv) (userA userB : UserProfile) : ℚ :=
  if userA.offers.length = 0 ∨ userB.wants.length = 0 then 0
  else
    let scores := semanticScores env userA userB
    if scores.length = 0 then 0
    else
      let average := scores.sum / (scores.length : ℚ)
      let mx := listMax scores
      average * (7/10) + mx * (3/10)

/-- `MatchingEngine.calculateSemanticScoreBtoA`: the same function with the
two users swapped. -/
def calculateSemanticScoreBtoA (env : SemanticEnv) (userA userB : UserProfile) : ℚ :=
  calculateSemanticScoreAtoB env userB userA

/-- `MatchingEngine.calculateMatchScore`: the hybrid weighted formula with a
final clamp of the total into `[0,1]`. -/
def calculateMatchScore (env : SemanticEnv) (userA userB : UserProfile)
    (weights : MatchingWeights) : MatchScore :=
  let semanticScoreAtoB := calculateSemanticScoreAtoB env userA userB
  let semanticScoreBtoA := calculateSemanticScoreBtoA env userA userB
  let languageResult := calculateLanguageSimilarity userA userB
  let trustResult := calculateTrustScore userA userB
  let totalScore :=
    weights.w1 * semanticScoreAtoB +
    weights.w2 * semanticScoreBtoA +
    weights.w3 * languageResult.score +
    weights.w4 * trustResult.score
  { totalScore := max 0 (min 1 totalScore)
    semanticScoreAtoB := semanticScoreAtoB
    semanticScoreBtoA := semanticScoreBtoA
    languageScore := languageResult.score
    trustScore := trustResult.score
    breakdown :=
      { w1 := weights.w1, w2 := weights.w2, w3 := weights.w3, w4 := weights.w4 } }

/-- `config.minMatchScore ?? 0.3`. -/
def minScoreOf (config : MatchingConfig) : ℚ :=
  config.minMatchScore.getD (3/10)

/-- `config.maxResults ?? 50`. -/
def maxResultsOf (config : MatchingConfig) : Nat :=
  config.maxResults.getD 50

/-- The candidate loop of `MatchingEngine.findMatches`: skip the query user
itself, score each remaining candidate, keep those meeting `minScore`. -/
def scoredMatches (env : SemanticEnv) (user : UserProfile)
    (candidates : List UserProfile) (weights : MatchingWeights)
    (minScore : ℚ) : List MatchResult :=
  candidates.filterMap (fun candidate =>
    if user.id = candidate.id then none
    else
      let matchScore := calculateMatchScore env user candidate weights
      if matchScore.totalScore ≥ minScore then
        some { userA := user, userB := candidate, matchScore := matchScore }
      else none)

/-- The comparator `(a, b) => b.matchScore.totalScore - a.matchScore.totalScore`
(descending) as a Boolean order for the stable sort. -/
def matchLE (a b : MatchResult) : Bool :=
  b.matchScore.totalScore ≤ a.matchScore.totalScore

/-- `matches.sort(...)` in `findMatches`: JavaScript `Array.prototype.sort` is
stable, modelled by a stable merge sort under `matchLE`. -/
def sortedMatches (env : SemanticEnv) (user : UserProfile)
    (candidates : List UserProfile) (weights : MatchingWeights)
    (minScore : ℚ) : List MatchResult :=
  (scoredMatches env user candidates weights minScore).mergeSort matchLE

/-- The pure pipeline of `findMatches` after successful initialization:
score, filter, sort descending, truncate to `maxResults`. -/
def rankMatches (env : SemanticEnv) (user : UserProfile)
    (candidates : List UserProfile) (config : MatchingConfig) : List MatchResult :=
  (sortedMatches env user candidates config.weights (minScoreOf config)).take
    (maxResultsOf config)

/-- `MatchingEngine.findMatches`: it first awaits
`semanticService.initialize()` with no surrounding `try`, so a failed
initialization propagates the thrown
`Error('Semantic service initialization failed')` to the caller; otherwise the
pure ranking pipeline runs. -/
def findMatches (env : SemanticEnv) (user : UserProfile)
    (candidates : List UserProfile) (config : MatchingConfig) :
    Except String (List MatchResult) :=
  if env.initOk then Except.ok (rankMatches env user candidates config)
  else Except.error "Semantic service initialization failed"

/-- `MatchingEngine.validateBidirectionalMatch`: both directional semantic
scores must meet `minScore`. -/
def validateBidirectionalMatch (env : SemanticEnv) (userA userB : UserProfile)
    (minScore : ℚ) : Bool :=
  let scoreAtoB := calculateSemanticScoreAtoB env userA userB
  let scoreBtoA := calculateSemanticScoreBtoA env userA userB
  decide (scoreAtoB ≥ minScore) && decide (scoreBtoA ≥ minScore)

/-! ### Reference definitions written from the specification's words -/

/-- Spec §4.1 failure-policy reference: exact case-insensitive name match
gives 1.0; substring containment either direction gives 0.7; otherwise a
non-empty collection of common whitespace-tokenized words gives
`(|common words| / max(|wordsA|, |wordsB|)) * 0.5`; no common word gives 0. -/
def fallbackSimilaritySpec (skillA skillB : Skill) : ℚ :=
  if skillA.name.toLower = skillB.name.toLower then 1
  else if strIncludes skillA.name.toLower skillB.name.toLower = true ∨
      strIncludes skillB.name.toLower skillA.name.toLower = true then 7/10
  else
    let wordsA := splitWs skillA.name.toLower
    let wordsB := splitWs skillB.name.toLower
    let commonWords := wordsA.filter (fun word => word ∈ wordsB)
    if commonWords.length > 0 then
      ((commonWords.length : ℚ) / ((max wordsA.length wordsB.length : Nat) : ℚ)) * (1/2)
    else 0

/-- Spec §4.1 reference for a best-match similarity: the highest similarity
value of the target skill against any of the candidate wants. -/
def bestMatchSimilaritySpec (sim : Skill → Skill → ℚ) (offer : Skill)
    (targetWants : List Skill) : ℚ :=
  listMax (targetWants.map (sim offer))

/-- Spec §4.2 reference for the directional aggregate score: 0 if either list
is empty; otherwise each offer contributes its best-match similarity times its
level weight, and the result is `0.7 * mean(scores) + 0.3 * max(scores)`
(0 if the scores list is empty). -/
def semanticDirectionalSpec (sim : Skill → Skill → ℚ)
    (sourceOffers targetWants : List Skill) : ℚ :=
  if sourceOffers = [] ∨ targetWants = [] then 0
  else
    let scores := sourceOffers.map (fun offer =>
      bestMatchSimilaritySpec sim offer targetWants * getLevelWeight offer.level)
    if scores = [] then 0
    else (7/10) * (scores.sum / (scores.length : ℚ)) + (3/10) * listMax scores

/-! ### Concrete fixtures used by witnesses and counterexamples -/

/-- A concrete skill: offered at expert level. -/
def skillC : Skill :=
  { id := "s1", name := "guitar", description := none, level := "expert", category := none }

/-- A concrete profile that offers `skillC` and wants nothing. -/
def userAC : UserProfile :=
  { id := "a", username := "alice", languages := ["en"],
    offers := [skillC], wants := [], trustScore := 1 }

/-- A concrete profile that wants `skillC` and offers nothing, declaring no
languages. -/
def userBC : UserProfile :=
  { id := "b", username := "bob", languages := [],
    offers := [], wants := [skillC], trustScore := 1 }

/-- A provider environment that initializes, responds, and reports raw cosine
similarity 1 for every pair. -/
def envC : SemanticEnv :=
  { initOk := true, callOk := true, embedSim := fun _ _ => 1 }

/-- A provider environment whose initialization fails. -/
def envBad : SemanticEnv :=
  { initOk := false, callOk := true, embedSim := fun _ _ => 0 }

/-- A configuration that explicitly requests bidirectional matching. -/
def cfgGate : MatchingConfig :=
  { weights := DEFAULT_WEIGHTS, minMatchScore := none, maxResults := none,
    enableBidirectionalMatching := some true }

/-- A default-style configuration (all optional fields absent). -/
def cfgDefault : MatchingConfig :=
  { weights := DEFAULT_WEIGHTS, minMatchScore := none, maxResults := none,
    enableBidirectionalMatching := none }

/-- A weight vector with a negative entry. -/
def weightsNeg : MatchingWeights :=
  { w1 := -1, w2 := 0, w3 := 0, w4 := 0 }

/-- A configuration carrying the negative weight vector and a zero
threshold. -/
def cfgNeg : MatchingConfig :=
  { weights := weightsNeg, minMatchScore := some 0, maxResults := none,
    enableBidirectionalMatching := none }

/-! ### Helper lemmas -/

/-- Arithmetic core of the fallback bound: a ratio of a positive count over a
dominating count, halved, lies in `[0,1]`. -/
lemma ratio_half_bounds (c m : Nat) (h3 : 0 < c) (hle : c ≤ m) :
    0 ≤ ((c : ℚ) / (m : ℚ)) * (1/2) ∧ ((c : ℚ) / (m : ℚ)) * (1/2) ≤ 1 := by
  have hmq : (0 : ℚ) < (m : ℚ) := by exact_mod_cast lt_of_lt_of_le h3 hle
  have hcq : (c : ℚ) ≤ (m : ℚ) := by exact_mod_cast hle
  have hd1 : (c : ℚ) / (m : ℚ) ≤ 1 := (div_le_one hmq).mpr hcq
  have hd0 : (0 : ℚ) ≤ (c : ℚ) / (m : ℚ) := div_nonneg (Nat.cast_nonneg c) (le_of_lt hmq)
  constructor <;> nlinarith

/-- The lexical fallback score always lies in `[0,1]`. -/
lemma fallbackSimilarity_bounds (a b : Skill) :
    0 ≤ fallbackSimilarity a b ∧ fallbackSimilarity a b ≤ 1 := by
  simp only [fallbackSimilarity]
  split_ifs with h1 h2 h3
  · norm_num
  · norm_num
  · have hfil : (List.filter (fun word => decide (word ∈ splitWs (b.name.toLower)))
        (splitWs (a.name.toLower))).length ≤ (splitWs (a.name.toLower)).length :=
      List.length_filter_le _ _
    exact ratio_half_bounds _ _ h3 (le_trans hfil (le_max_left _ _))
  · norm_num

/-- The code's fallback agrees with the specification's reference fallback. -/
lemma fallbackSimilarity_eq_spec (a b : Skill) :
    fallbackSimilarity a b = fallbackSimilaritySpec a b := by
  simp only [fallbackSimilarity, fallbackSimilaritySpec, Bool.or_eq_true]

/-- Every similarity the semantic service reports is non-negative: the
embedding path is clamped by `Math.max(0, ...)` and the fallback is
non-negative. -/
lemma calculateSkillSimilarity_nonneg (env : SemanticEnv) (a b : Skill) :
    0 ≤ calculateSkillSimilarity env a b := by
  unfold calculateSkillSimilarity
  split_ifs
  · exact le_max_left _ _
  · exact (fallbackSimilarity_bounds a b).1

/-- Once the loop of `findBestMatch` holds a candidate it never drops it. -/
lemma findBestMatchLoop_isSome (env : SemanticEnv) (t : Skill) :
    ∀ (cands : List Skill) (p : Skill × ℚ) (bs : ℚ),
      (findBestMatchLoop env t cands (some p) bs).isSome := by
  intro cands
  induction cands with
  | nil => intro p bs; rfl
  | cons c rest ih =>
    intro p bs
    simp only [findBestMatchLoop]
    split_ifs
    · exact ih _ _
    · exact ih _ _

/-- The similarity held by the loop's result is the running maximum of the
initial `bestScore` and all candidate similarities. -/
lemma findBestMatchLoop_snd (env : SemanticEnv) (t : Skill) :
    ∀ (cands : List Skill) (best : Option (Skill × ℚ)) (bs : ℚ),
      (∀ p, best = some p → p.2 = bs) →
      ∀ q, findBestMatchLoop env t cands best bs = some q →
        q.2 = cands.foldl (fun acc c => max acc (calculateSkillSimilarity env t c)) bs := by
  intro cands
  induction cands with
  | nil =>
    intro best bs hinv q hq
    simp only [findBestMatchLoop] at hq
    simp only [List.foldl_nil]
    exact hinv q hq
  | cons c rest ih =>
    intro best bs hinv q hq
    simp only [findBestMatchLoop] at hq
    simp only [List.foldl_cons]
    by_cases h : calculateSkillSimilarity env t c > bs
    · rw [if_pos h] at hq
      have hrec := ih (some (c, calculateSkillSimilarity env t c))
        (calculateSkillSimilarity env t c) (by intro p hp; cases hp; rfl) q hq
      rwa [max_eq_right (le_of_lt h)]
    · rw [if_neg h] at hq
      have hrec := ih best bs hinv q hq
      rwa [max_eq_left (not_lt.mp h)]

/-- On a non-empty candidate list, `findBestMatch` returns a result whose
similarity is the maximum similarity over the candidates. -/
lemma findBestMatch_snd (env : SemanticEnv) (t : Skill) (cands : List Skill)
    (h : cands ≠ []) :
    (findBestMatch env t cands).map Prod.snd =
      some (listMax (cands.map (calculateSkillSimilarity env t))) := by
  obtain ⟨c, rest, rfl⟩ := List.exists_cons_of_ne_nil h
  unfold findBestMatch
  rw [if_neg (by simp)]
  simp only [findBestMatchLoop]
  have hs : calculateSkillSimilarity env t c > (-1 : ℚ) :=
    lt_of_lt_of_le (by norm_num) (calculateSkillSimilarity_nonneg env t c)
  rw [if_pos hs]
  obtain ⟨q, hq⟩ := Option.isSome_iff_exists.mp
    (findBestMatchLoop_isSome env t rest (c, calculateSkillSimilarity env t c)
      (calculateSkillSimilarity env t c))
  rw [hq]
  have hq2 := findBestMatchLoop_snd env t rest _ _
    (by intro p hp; cases hp; rfl) q hq
  simp only [Option.map_some']
  rw [hq2]
  simp only [List.map_cons, listMax]
  rw [List.foldl_map]

/-- `findBestMatch` never returns `none` on a non-empty candidate list. -/
lemma findBestMatch_isSome (env : SemanticEnv) (t : Skill) (cands : List Skill)
    (h : cands ≠ []) : (findBestMatch env t cands).isSome := by
  have hsnd := findBestMatch_snd env t cands h
  cases hf : findBestMatch env t cands with
  | none => rw [hf] at hsnd; simp at hsnd
  | some q => rfl

/-- A `filterMap` whose function always succeeds is a `map`. -/
lemma filterMap_all_some {α β : Type _} (f : α → Option β) (g : α → β)
    (h : ∀ x, f x = some (g x)) : ∀ l : List α, l.filterMap f = l.map g := by
  intro l
  induction l with
  | nil => rfl
  | cons x xs ih => simp [List.filterMap_cons, h x, ih]

/-- With a non-empty want list, the `scores` array has exactly one entry per
offer: the offer's maximal similarity times its level weight. -/
lemma semanticScores_eq (env : SemanticEnv) (A B : UserProfile)
    (hB : B.wants ≠ []) :
    semanticScores env A B = A.offers.map (fun offer =>
      listMax (B.wants.map (calculateSkillSimilarity env offer)) *
        getLevelWeight offer.level) := by
  unfold semanticScores
  apply filterMap_all_some
  intro offer
  have hsnd := findBestMatch_snd env offer B.wants hB
  cases hf : findBestMatch env offer B.wants with
  | none => rw [hf] at hsnd; simp at hsnd
  | some q =>
    rw [hf] at hsnd
    simp only [Option.map_some', Option.some.injEq] at hsnd
    simp only [Option.map_some', Option.some.injEq]
    rw [hsnd]

/-- Membership in the deduplication worker: present in the remaining input
and not already seen. -/
lemma mem_dedupFirstAux : ∀ (l seen : List String) (x : String),
    x ∈ dedupFirstAux seen l ↔ x ∈ l ∧ x ∉ seen := by
  intro l
  induction l with
  | nil => intro seen x; simp [dedupFirstAux]
  | cons y ys ih =>
    intro seen x
    simp only [dedupFirstAux]
    split_ifs with hy
    · rw [ih]
      constructor
      · rintro ⟨hx, hs⟩
        exact ⟨List.mem_cons_of_mem _ hx, hs⟩
      · rintro ⟨hx, hs⟩
        rcases List.mem_cons.mp hx with rfl | hx2
        · exact absurd hy hs
        · exact ⟨hx2, hs⟩
    · constructor
      · intro hx
        rcases List.mem_cons.mp hx with rfl | hx2
        · exact ⟨List.mem_cons_self _ _, hy⟩
        · obtain ⟨hx3, hx4⟩ := (ih _ _).mp hx2
          exact ⟨List.mem_cons_of_mem _ hx3,
            fun hc => hx4 (List.mem_cons_of_mem _ hc)⟩
      · rintro ⟨hx, hs⟩
        by_cases hxy : x = y
        · subst hxy
          exact List.mem_cons_self _ _
        · rcases List.mem_cons.mp hx with h | h
          · exact absurd h hxy
          · refine List.mem_cons_of_mem _ ((ih _ _).mpr ⟨h, ?_⟩)
            intro hc
            rcases List.mem_cons.mp hc with h2 | h2
            · exact hxy h2
            · exact hs h2

/-- Deduplication preserves membership. -/
lemma mem_dedupFirst (l : List String) (x : String) :
    x ∈ dedupFirst l ↔ x ∈ l := by
  unfold dedupFirst
  rw [mem_dedupFirstAux]
  simp

/-- Every entry the candidate loop keeps is a non-self candidate meeting the
threshold. -/
lemma scoredMatches_mem (env : SemanticEnv) (user : UserProfile)
    (candidates : List UserProfile) (weights : MatchingWeights) (minScore : ℚ)
    (m : MatchResult) (hm : m ∈ scoredMatches env user candidates weights minScore) :
    m.userB.id ≠ user.id ∧ minScore ≤ m.matchScore.totalScore := by
  unfold scoredMatches at hm
  obtain ⟨c, hc, heq⟩ := List.mem_filterMap.mp hm
  by_cases h1 : user.id = c.id
  · rw [if_pos h1] at heq
    exact absurd heq (by simp)
  · rw [if_neg h1] at heq
    by_cases h2 : (calculateMatchScore env user c weights).totalScore ≥ minScore
    · rw [if_pos h2] at heq
      obtain rfl := Option.some.inj heq
      exact ⟨fun hh => h1 hh.symm, h2⟩
    · rw [if_neg h2] at heq
      exact absurd heq (by simp)

/-- The descending comparator is transitive. -/
lemma matchLE_trans : ∀ a b c : MatchResult, matchLE a b → matchLE b c → matchLE a c := by
  intro a b c h1 h2
  simp only [matchLE, decide_eq_true_eq] at h1 h2 ⊢
  exact le_trans h2 h1

/-- The descending comparator is total. -/
lemma matchLE_total : ∀ a b : MatchResult, matchLE a b || matchLE b a := by
  intro a b
  simp only [matchLE, Bool.or_eq_true, decide_eq_true_eq]
  exact le_total _ _

/-- The code's directional semantic score equals the specification's
reference aggregate. -/
lemma calcAtoB_spec (env : SemanticEnv) (A B : UserProfile) :
    calculateSemanticScoreAtoB env A B =
      semanticDirectionalSpec (calculateSkillSimilarity env) A.offers B.wants := by
  unfold calculateSemanticScoreAtoB semanticDirectionalSpec bestMatchSimilaritySpec
  simp only [List.length_eq_zero]
  by_cases h : A.offers = [] ∨ B.wants = []
  · rw [if_pos h, if_pos h]
  · rw [if_neg h, if_neg h]
    push_neg at h
    rw [semanticScores_eq env A B h.2]
    have hne : A.offers.map (fun offer =>
        listMax (B.wants.map (calculateSkillSimilarity env offer)) *
          getLevelWeight offer.level) ≠ [] := by
      simpa using h.1
    rw [if_neg (by simpa using h.1), if_neg hne]
    ring

/-! ### Claim theorems -/

/-- C1: for every pair of profiles and every weight vector with non-negative
entries, `calculateMatchScore` yields `totalScore ∈ [0,1]`, and the total is
exactly the weighted sum `w1*semanticAtoB + w2*semanticBtoA + w3*language +
w4*trust` clamped into `[0,1]` as the final step. -/
theorem calculateMatchScore_total_clamped (env : SemanticEnv)
    (A B : UserProfile) (w : MatchingWeights)
    (h1 : 0 ≤ w.w1) (h2 : 0 ≤ w.w2) (h3 : 0 ≤ w.w3) (h4 : 0 ≤ w.w4) :
    0 ≤ (calculateMatchScore env A B w).totalScore ∧
    (calculateMatchScore env A B w).totalScore ≤ 1 ∧
    (calculateMatchScore env A B w).totalScore =
      max 0 (min 1
        (w.w1 * calculateSemanticScoreAtoB env A B +
         w.w2 * calculateSemanticScoreBtoA env A B +
         w.w3 * (calculateLanguageSimilarity A B).score +
         w.w4 * (calculateTrustScore A B).score)) :=
  ⟨le_max_left _ _, max_le zero_le_one (min_le_left _ _), rfl⟩

/-- C1 witness: the default weight vector is non-negative and the composite
score of the concrete pair lies in `[0,1]`. -/
theorem calculateMatchScore_total_clamped_witness :
    (calculateMatchScore envC userAC userBC DEFAULT_WEIGHTS).totalScore ≤ 1 :=
  (calculateMatchScore_total_clamped envC userAC userBC DEFAULT_WEIGHTS
    (by norm_num [DEFAULT_WEIGHTS]) (by norm_num [DEFAULT_WEIGHTS])
    (by norm_num [DEFAULT_WEIGHTS]) (by norm_num [DEFAULT_WEIGHTS])).2.1

/-- C2: the directional semantic score of the code equals the specification's
reference aggregate (empty side gives 0; per-offer best-match similarity times
the level weight; `0.7*mean + 0.3*max`), and the B→A direction is the same
function with the profiles' roles swapped. -/
theorem semanticScore_matches_spec (env : SemanticEnv) (A B : UserProfile) :
    calculateSemanticScoreAtoB env A B =
      semanticDirectionalSpec (calculateSkillSimilarity env) A.offers B.wants ∧
    calculateSemanticScoreBtoA env A B =
      semanticDirectionalSpec (calculateSkillSimilarity env) B.offers A.wants ∧
    getLevelWeight "beginner" = 1/2 ∧ getLevelWeight "intermediate" = 3/4 ∧
    getLevelWeight "advanced" = 9/10 ∧ getLevelWeight "expert" = 1 ∧
    getLevelWeight "unicycling" = 1/2 :=
  ⟨calcAtoB_spec env A B, calcAtoB_spec env B A, rfl, rfl, rfl, rfl, rfl⟩

/-- C4: the lexical fallback similarity equals the specification's reference
definition (exact case-insensitive match 1.0; substring containment 0.7;
common-word ratio halved; else 0), is total, and always lies in `[0,1]`. -/
theorem fallbackSimilarity_matches_spec (a b : Skill) :
    fallbackSimilarity a b = fallbackSimilaritySpec a b ∧
    0 ≤ fallbackSimilarity a b ∧ fallbackSimilarity a b ≤ 1 :=
  ⟨fallbackSimilarity_eq_spec a b, (fallbackSimilarity_bounds a b).1,
    (fallbackSimilarity_bounds a b).2⟩

/-- C6: `calculateTrustScore` clamps each rating independently, applies the
low-trust penalty and mutual-high-trust bonus as mutually exclusive branches
over the average, clamps the result, and on the concrete extremes: both raw
ratings 0.1 give exactly 0.07, both 0.9 give a result between the average
and 1. -/
theorem calculateTrustScore_branches (A B : UserProfile) :
    (calculateTrustScore A B).factors.userATrust = max 0 (min 1 A.trustScore) ∧
    (calculateTrustScore A B).factors.userBTrust = max 0 (min 1 B.trustScore) ∧
    (calculateTrustScore A B).score =
      max 0 (min 1
        (if normalizeTrustScore A.trustScore < 3/10 ∨
            normalizeTrustScore B.trustScore < 3/10 then
          (normalizeTrustScore A.trustScore + normalizeTrustScore B.trustScore) / 2 * (7/10)
        else if normalizeTrustScore A.trustScore > 8/10 ∧
            normalizeTrustScore B.trustScore > 8/10 then
          min 1 ((normalizeTrustScore A.trustScore + normalizeTrustScore B.trustScore) / 2 * (11/10))
        else (normalizeTrustScore A.trustScore + normalizeTrustScore B.trustScore) / 2)) ∧
    ¬((normalizeTrustScore A.trustScore < 3/10 ∨ normalizeTrustScore B.trustScore < 3/10) ∧
      (normalizeTrustScore A.trustScore > 8/10 ∧ normalizeTrustScore B.trustScore > 8/10)) ∧
    (A.trustScore = 1/10 → B.trustScore = 1/10 →
      (calculateTrustScore A B).score = 7/100) ∧
    (A.trustScore = 9/10 → B.trustScore = 9/10 →
      (normalizeTrustScore A.trustScore + normalizeTrustScore B.trustScore) / 2 ≤
          (calculateTrustScore A B).score ∧
        (calculateTrustScore A B).score ≤ 1) := by
  refine ⟨rfl, rfl, ?_, ?_, ?_, ?_⟩
  · simp only [calculateTrustScore, normalizeTrustScore]
    split_ifs with h1 h2 <;> try rfl
    exfalso
    rcases h2 with h | h <;> linarith [h1.1, h1.2]
  · rintro ⟨hlo, hhi⟩
    rcases hlo with h | h
    · exact absurd hhi.1 (by linarith)
    · exact absurd hhi.2 (by linarith)
  · intro hA hB
    simp only [calculateTrustScore, normalizeTrustScore, hA, hB]
    norm_num [min_def, max_def]
  · intro hA hB
    simp only [calculateTrustScore, normalizeTrustScore, hA, hB]
    norm_num [min_def, max_def]

/-- C6 witness: both raw trust ratings 0.1 give exactly 0.07. -/
theorem calculateTrustScore_branches_witness :
    (calculateTrustScore { userAC with trustScore := 1/10 }
      { userBC with trustScore := 1/10 }).score = 7/100 :=
  (calculateTrustScore_branches { userAC with trustScore := 1/10 }
    { userBC with trustScore := 1/10 }).2.2.2.2.1 rfl rfl

/-- C3: every ranking result `findMatches` returns excludes the query profile,
contains only entries meeting the threshold, is sorted by total score in
non-increasing order, keeps equal-score entries in their pre-sort (original
candidate) order, has at most `maxResults` entries, and is exactly the stable
descending sort of the kept candidates truncated to `maxResults`. -/
theorem findMatches_ranking_props (env : SemanticEnv) (user : UserProfile)
    (candidates : List UserProfile) (config : MatchingConfig)
    (res : List MatchResult)
    (h : findMatches env user candidates config = Except.ok res) :
    (∀ m ∈ res, m.userB.id ≠ user.id) ∧
    (∀ m ∈ res, minScoreOf config ≤ m.matchScore.totalScore) ∧
    res.Pairwise (fun a b => b.matchScore.totalScore ≤ a.matchScore.totalScore) ∧
    res.length ≤ maxResultsOf config ∧
    (∀ a b : MatchResult,
      [a, b].Sublist (scoredMatches env user candidates config.weights (minScoreOf config)) →
      a.matchScore.totalScore = b.matchScore.totalScore →
      [a, b].Sublist (sortedMatches env user candidates config.weights (minScoreOf config))) ∧
    res = (sortedMatches env user candidates config.weights (minScoreOf config)).take
      (maxResultsOf config) := by
  have hres : res = rankMatches env user candidates config := by
    unfold findMatches at h
    by_cases hi : env.initOk
    · rw [if_pos hi] at h
      exact (Except.ok.inj h).symm
    · rw [if_neg hi] at h
      exact absurd h (by simp)
  subst hres
  refine ⟨?_, ?_, ?_, ?_, ?_, rfl⟩
  · intro m hm
    have hm2 : m ∈ sortedMatches env user candidates config.weights (minScoreOf config) :=
      List.take_subset _ _ hm
    rw [sortedMatches, List.mem_mergeSort] at hm2
    exact (scoredMatches_mem env user candidates config.weights (minScoreOf config) m hm2).1
  · intro m hm
    have hm2 : m ∈ sortedMatches env user candidates config.weights (minScoreOf config) :=
      List.take_subset _ _ hm
    rw [sortedMatches, List.mem_mergeSort] at hm2
    exact (scoredMatches_mem env user candidates config.weights (minScoreOf config) m hm2).2
  · have hp : (sortedMatches env user candidates config.weights (minScoreOf config)).Pairwise
        (fun a b => matchLE a b = true) :=
      List.sorted_mergeSort matchLE_trans matchLE_total _
    have hp2 := hp.imp (fun hab => by
      simpa only [matchLE, decide_eq_true_eq] using hab)
    exact hp2.sublist (List.take_sublist _ _)
  · exact List.length_take_le _ _
  · intro a b hab heq
    refine List.sublist_mergeSort matchLE_trans matchLE_total ?_ hab
    refine List.pairwise_cons.mpr ⟨?_, List.pairwise_singleton _ _⟩
    intro c hc
    rcases List.mem_singleton.mp hc with rfl
    simp [matchLE, heq]

/-- C3 witness: with no candidates, ranking succeeds and the (empty) result
respects the cap. -/
theorem findMatches_ranking_props_witness :
    ([] : List MatchResult).length ≤ maxResultsOf cfgDefault := by
  have h : findMatches envC userAC [] cfgDefault = Except.ok [] := by
    unfold findMatches rankMatches sortedMatches scoredMatches
    simp [envC]
  exact (findMatches_ranking_props envC userAC [] cfgDefault [] h).2.2.2.1

/-- C5: when the normalized language sets are disjoint, the language score is
exactly 0 and the common-language list is empty; moreover the
primary-language bonus condition cannot hold, since equal normalized primary
languages would put that language in both sets. -/
theorem language_disjoint_zero (A B : UserProfile)
    (h : ∀ lang ∈ A.languages.map normalizeLang, lang ∉ B.languages.map normalizeLang) :
    (calculateLanguageSimilarity A B).score = 0 ∧
    (calculateLanguageSimilarity A B).commonLanguages = [] ∧
    ¬(A.languages.length > 0 ∧ B.languages.length > 0 ∧
      A.languages.head?.map normalizeLang = B.languages.head?.map normalizeLang) := by
  have hbonus : ¬(A.languages.length > 0 ∧ B.languages.length > 0 ∧
      A.languages.head?.map normalizeLang = B.languages.head?.map normalizeLang) := by
    rintro ⟨hA, hB, heq⟩
    obtain ⟨a0, as, hAeq⟩ := List.exists_cons_of_ne_nil (List.length_pos.mp hA)
    obtain ⟨b0, bs, hBeq⟩ := List.exists_cons_of_ne_nil (List.length_pos.mp hB)
    rw [hAeq, hBeq] at heq
    simp only [List.head?_cons, Option.map_some', Option.some.injEq] at heq
    refine h (normalizeLang a0) ?_ ?_
    · rw [hAeq]
      exact List.mem_map_of_mem _ (List.mem_cons_self _ _)
    · rw [hBeq, heq]
      exact List.mem_map_of_mem _ (List.mem_cons_self _ _)
  have hcommon : (dedupFirst (A.languages.map normalizeLang)).filter
      (fun lang => lang ∈ dedupFirst (B.languages.map normalizeLang)) = [] := by
    rw [List.filter_eq_nil_iff]
    intro a ha
    have haA : a ∈ A.languages.map normalizeLang := (mem_dedupFirst _ _).mp ha
    have haB : a ∉ B.languages.map normalizeLang := h a haA
    simp [mem_dedupFirst, haB]
  refine ⟨?_, ?_, hbonus⟩
  · simp only [calculateLanguageSimilarity, hcommon]
    rw [if_neg hbonus]
    simp
  · simp only [calculateLanguageSimilarity, hcommon]

/-- C5 witness: the concrete profiles share no language, so their language
score is 0. -/
theorem language_disjoint_zero_witness :
    (calculateLanguageSimilarity userAC userBC).score = 0 :=
  (language_disjoint_zero userAC userBC (by simp [userBC])).1

/-- C10: `findBestMatch` returns a match for every non-empty candidate list
(similarities are never negative, so the initial best of `-1` is always
beaten), and with non-empty offers and wants the `scores` list of the
directional aggregate has exactly one entry per offer. -/
theorem findBestMatch_total_scores_count (env : SemanticEnv) (t : Skill)
    (cands : List Skill) (s1 s2 : Skill) (A B : UserProfile)
    (hc : cands ≠ []) (hA : A.offers ≠ []) (hB : B.wants ≠ []) :
    (findBestMatch env t cands).isSome = true ∧
    0 ≤ calculateSkillSimilarity env s1 s2 ∧
    (semanticScores env A B).length = A.offers.length := by
  refine ⟨findBestMatch_isSome env t cands hc,
    calculateSkillSimilarity_nonneg env s1 s2, ?_⟩
  rw [semanticScores_eq env A B hB, List.length_map]

/-- C10 witness: at the concrete fixture, the best match exists and the
scores list counts the single offer. -/
theorem findBestMatch_total_scores_count_witness :
    (findBestMatch envC skillC [skillC]).isSome = true ∧
    (semanticScores envC userAC userBC).length = userAC.offers.length := by
  have h := findBestMatch_total_scores_count envC skillC [skillC] skillC skillC
    userAC userBC (by simp) (by simp [userAC]) (by simp [userBC])
  exact ⟨h.1, h.2.2⟩

/-! ### Concrete evaluations at the fixtures -/

/-- In `envC` every pair of skills gets similarity 1 from the provider. -/
lemma skillSimC (s t : Skill) : calculateSkillSimilarity envC s t = 1 := by
  norm_num [calculateSkillSimilarity, envC, max_def]

/-- The `scores` array at the fixtures holds the single entry 1. -/
lemma semScoresC : semanticScores envC userAC userBC = [1] := by
  have hlw : getLevelWeight "expert" = 1 := by
    unfold getLevelWeight
    rw [if_neg (by decide), if_neg (by decide), if_neg (by decide), if_pos rfl]
  have hbm : findBestMatch envC skillC [skillC] = some (skillC, 1) := by
    unfold findBestMatch findBestMatchLoop
    rw [if_neg (by decide), if_pos (by rw [skillSimC]; norm_num), skillSimC]
    rfl
  simp only [semanticScores]
  rw [show userAC.offers = [skillC] from rfl, show userBC.wants = [skillC] from rfl,
    List.filterMap_cons, List.filterMap_nil, hbm]
  simp only [Option.map_some']
  rw [show skillC.level = "expert" from rfl, hlw]
  norm_num

/-- The A→B semantic score of the fixtures is 1. -/
lemma semAtoB_C : calculateSemanticScoreAtoB envC userAC userBC = 1 := by
  unfold calculateSemanticScoreAtoB
  rw [if_neg (by simp [userAC, userBC])]
  rw [semScoresC]
  norm_num [listMax]

/-- The B→A semantic score of the fixtures is 0 (the second profile offers
nothing). -/
lemma semBtoA_C : calculateSemanticScoreBtoA envC userAC userBC = 0 := by
  simp [calculateSemanticScoreBtoA, calculateSemanticScoreAtoB, userBC]

/-- The fixtures share no language, so their language score is 0. -/
lemma langScoreC : (calculateLanguageSimilarity userAC userBC).score = 0 := by
  simp [calculateLanguageSimilarity, dedupFirst, dedupFirstAux, userAC, userBC]

/-- Both fixture profiles have raw trust 1, so the pair trust score is 1. -/
lemma trustScoreC : (calculateTrustScore userAC userBC).score = 1 := by
  norm_num [calculateTrustScore, normalizeTrustScore, userAC, userBC, min_def, max_def]

/-- The fixtures' composite score under the default weights is 0.5. -/
lemma matchScoreC : (calculateMatchScore envC userAC userBC DEFAULT_WEIGHTS).totalScore = 1/2 := by
  have h : (calculateMatchScore envC userAC userBC DEFAULT_WEIGHTS).totalScore =
      max 0 (min 1 (DEFAULT_WEIGHTS.w1 * calculateSemanticScoreAtoB envC userAC userBC +
        DEFAULT_WEIGHTS.w2 * calculateSemanticScoreBtoA envC userAC userBC +
        DEFAULT_WEIGHTS.w3 * (calculateLanguageSimilarity userAC userBC).score +
        DEFAULT_WEIGHTS.w4 * (calculateTrustScore userAC userBC).score)) := rfl
  rw [h, semAtoB_C, semBtoA_C, langScoreC, trustScoreC]
  norm_num [DEFAULT_WEIGHTS, min_def, max_def]

/-- The single ranked entry produced at the fixtures under default weights. -/
def matchC : MatchResult :=
  { userA := userAC, userB := userBC,
    matchScore := calculateMatchScore envC userAC userBC DEFAULT_WEIGHTS }

/-- The candidate loop at the fixtures keeps exactly the one candidate. -/
lemma scoredC : scoredMatches envC userAC [userBC] DEFAULT_WEIGHTS (3/10) = [matchC] := by
  simp only [scoredMatches, List.filterMap_cons, List.filterMap_nil]
  rw [if_neg (show ¬userAC.id = userBC.id by decide)]
  rw [if_pos (show (calculateMatchScore envC userAC userBC DEFAULT_WEIGHTS).totalScore ≥ (3/10 : ℚ) by
    rw [matchScoreC]; norm_num)]
  rfl

/-- Ranking the fixtures under a configuration with default weights and
thresholds returns exactly the one entry. -/
lemma findMatchesGateC : findMatches envC userAC [userBC] cfgGate = Except.ok [matchC] := by
  unfold findMatches rankMatches sortedMatches
  rw [if_pos (show envC.initOk = true from rfl)]
  have hw : cfgGate.weights = DEFAULT_WEIGHTS := rfl
  have hms : minScoreOf cfgGate = 3/10 := rfl
  rw [hw, hms, scoredC, List.mergeSort_singleton]
  rfl

/-! ### Corrected-claim theorems (C7, C8, C9) -/

/-- C7 counterexample: with bidirectional matching explicitly requested in the
configuration, `findMatches` still returns the candidate pair even though the
bidirectional check fails for it — the gate is not applied. -/
theorem gate_requested_not_applied :
    cfgGate.enableBidirectionalMatching = some true ∧
    findMatches envC userAC [userBC] cfgGate = Except.ok [matchC] ∧
    matchC.userB = userBC ∧
    validateBidirectionalMatch envC userAC userBC (3/10) = false := by
  refine ⟨rfl, findMatchesGateC, rfl, ?_⟩
  simp only [validateBidirectionalMatch, semAtoB_C, semBtoA_C]
  norm_num

/-- C7 amended: `validateBidirectionalMatch` is true iff both directional
scores meet `minScore`; however, `findMatches` never applies this check —
its result is unchanged by the `enableBidirectionalMatching` flag. -/
theorem validateBidirectional_iff_flag_ignored (env : SemanticEnv)
    (A B : UserProfile) (minScore : ℚ) (user : UserProfile)
    (candidates : List UserProfile) (w : MatchingWeights) (ms : Option ℚ)
    (mr : Option Nat) (b1 b2 : Option Bool) :
    (validateBidirectionalMatch env A B minScore = true ↔
      (minScore ≤ calculateSemanticScoreAtoB env A B ∧
        minScore ≤ calculateSemanticScoreBtoA env A B)) ∧
    findMatches env user candidates
        { weights := w, minMatchScore := ms, maxResults := mr,
          enableBidirectionalMatching := b1 } =
      findMatches env user candidates
        { weights := w, minMatchScore := ms, maxResults := mr,
          enableBidirectionalMatching := b2 } := by
  constructor
  · simp [validateBidirectionalMatch, ge_iff_le]
  · rfl

/-- C7 amended witness: flipping the flag does not change the ranking result
at the concrete fixtures. -/
theorem validateBidirectional_iff_flag_ignored_witness :
    findMatches envC userAC []
        { weights := DEFAULT_WEIGHTS, minMatchScore := none, maxResults := none,
          enableBidirectionalMatching := none } =
      findMatches envC userAC []
        { weights := DEFAULT_WEIGHTS, minMatchScore := none, maxResults := none,
          enableBidirectionalMatching := some true } :=
  (validateBidirectional_iff_flag_ignored envC userAC userBC 0 userAC []
    DEFAULT_WEIGHTS none none none (some true)).2

/-- The composite score of the fixtures under the negative weight vector:
the raw weighted sum is −1, clamped to 0. -/
lemma matchScoreNegC : (calculateMatchScore envC userAC userBC weightsNeg).totalScore = 0 := by
  have h : (calculateMatchScore envC userAC userBC weightsNeg).totalScore =
      max 0 (min 1 (weightsNeg.w1 * calculateSemanticScoreAtoB envC userAC userBC +
        weightsNeg.w2 * calculateSemanticScoreBtoA envC userAC userBC +
        weightsNeg.w3 * (calculateLanguageSimilarity userAC userBC).score +
        weightsNeg.w4 * (calculateTrustScore userAC userBC).score)) := rfl
  rw [h, semAtoB_C, semBtoA_C, langScoreC, trustScoreC]
  norm_num [weightsNeg, min_def, max_def]

/-- The entry ranked under the negative weight vector. -/
def matchNegC : MatchResult :=
  { userA := userAC, userB := userBC,
    matchScore := calculateMatchScore envC userAC userBC weightsNeg }

/-- The candidate loop still keeps the candidate under negative weights. -/
lemma scoredNegC : scoredMatches envC userAC [userBC] weightsNeg 0 = [matchNegC] := by
  simp only [scoredMatches, List.filterMap_cons, List.filterMap_nil]
  rw [if_neg (show ¬userAC.id = userBC.id by decide)]
  rw [if_pos (show (calculateMatchScore envC userAC userBC weightsNeg).totalScore ≥ (0 : ℚ) by
    rw [matchScoreNegC])]
  rfl

/-- C8 counterexample: a request whose weight vector has a negative entry is
not rejected — `findMatches` scores the candidates with the negative weights
as given and returns a ranked result carrying them. -/
theorem negative_weights_not_rejected :
    weightsNeg.w1 < 0 ∧
    findMatches envC userAC [userBC] cfgNeg = Except.ok [matchNegC] ∧
    (calculateMatchScore envC userAC userBC weightsNeg).breakdown.w1 = -1 := by
  refine ⟨by norm_num [weightsNeg], ?_, rfl⟩
  unfold findMatches rankMatches sortedMatches
  rw [if_pos (show envC.initOk = true from rfl)]
  have hw : cfgNeg.weights = weightsNeg := rfl
  have hms : minScoreOf cfgNeg = 0 := rfl
  rw [hw, hms, scoredNegC, List.mergeSort_singleton]
  rfl

/-- C8 amended: negative weights are not validated anywhere — for any weight
vector with a negative entry the ranking request is still processed end to
end, and the weights appear unchanged in every score breakdown. -/
theorem negative_weights_still_scored (env : SemanticEnv) (user A B : UserProfile)
    (candidates : List UserProfile) (w : MatchingWeights) (ms : Option ℚ)
    (mr : Option Nat) (b : Option Bool)
    (hneg : w.w1 < 0 ∨ w.w2 < 0 ∨ w.w3 < 0 ∨ w.w4 < 0)
    (hinit : env.initOk = true) :
    findMatches env user candidates
        { weights := w, minMatchScore := ms, maxResults := mr,
          enableBidirectionalMatching := b } =
      Except.ok (rankMatches env user candidates
        { weights := w, minMatchScore := ms, maxResults := mr,
          enableBidirectionalMatching := b }) ∧
    (calculateMatchScore env A B w).breakdown = w := by
  refine ⟨?_, rfl⟩
  unfold findMatches
  rw [if_pos hinit]

/-- C8 amended witness: the negative weight vector flows unchanged into the
breakdown at the fixtures. -/
theorem negative_weights_still_scored_witness :
    (calculateMatchScore envC userAC userBC weightsNeg).breakdown = weightsNeg :=
  (negative_weights_still_scored envC userAC userAC userBC [] weightsNeg (some 0)
    none none (Or.inl (by norm_num [weightsNeg])) rfl).2

/-- C9 counterexample: when the provider fails to initialize, `findMatches`
surfaces the initialization error to its caller instead of recovering. -/
theorem provider_init_failure_surfaced :
    findMatches envBad userAC [userBC] cfgDefault =
      Except.error "Semantic service initialization failed" := by
  simp [findMatches, envBad]

/-- C9 amended: per-skill similarity always recovers locally through the
lexical fallback (on initialization failure or per-call failure), so `score`
never surfaces a provider failure; but `rank` calls `initialize` without
handling, so an initialization failure is surfaced to `rank`'s caller, and
only with successful initialization does `rank` return a result. -/
theorem provider_failure_handling (env : SemanticEnv) (a b : Skill)
    (user : UserProfile) (candidates : List UserProfile) (config : MatchingConfig) :
    (env.initOk = false →
      calculateSkillSimilarity env a b = fallbackSimilarity a b ∧
      findMatches env user candidates config =
        Except.error "Semantic service initialization failed") ∧
    (env.callOk = false → calculateSkillSimilarity env a b = fallbackSimilarity a b) ∧
    (env.initOk = true →
      findMatches env user candidates config =
        Except.ok (rankMatches env user candidates config)) := by
  refine ⟨fun hi => ⟨?_, ?_⟩, fun hc => ?_, fun hi => ?_⟩
  · simp [calculateSkillSimilarity, hi]
  · simp [findMatches, hi]
  · simp [calculateSkillSimilarity, hc]
  · simp [findMatches, hi]

/-- C9 amended witness: at the failing environment, the error is surfaced. -/
theorem provider_failure_handling_witness :
    findMatches envBad userAC [] cfgDefault =
      Except.error "Semantic service initialization failed" :=
  ((provider_failure_handling envBad skillC skillC userAC [] cfgDefault).1 rfl).2

end SwapSphere
